import Mathlib

/-
  Verification of the session / conversation-memory subsystem of the
  ChatApp repository (src/app.py and src/src/chatapp/chat.py).

  The Python sources are shallowly embedded:
  * chat.py's module state (the two ConversationBufferMemory objects and
    the lazily initialized LLM client) becomes an explicit `ChatState`
    record threaded through the functions; the external completion
    service (LangChain chain invocation) and the client initialization
    are passed in as explicit `Except`-valued outcomes.
  * app.py's process-wide session registry (`_ACTIVE_SESSIONS`, a dict
    from session id to last-activity timestamp) becomes an association
    list with unique keys; the Streamlit per-browser `st.session_state`
    becomes a `Browser` record, and the reachable request kinds (login
    submit, URL-token restore, authenticated request) become events of a
    step relation on a global system state.
  Timestamps (Python `time.time()` floats) are modelled as integers.
-/

namespace ChatApp

/-! ## String helpers: Python `str.lower()` and the `in` substring test -/

/-- Boolean test that `pre` is a prefix of the second character list;
models Python's substring matching at one position. -/
def charsStartWith : List Char → List Char → Bool
  | [], _ => true
  | _ :: _, [] => false
  | a :: as, b :: bs => a == b && charsStartWith as bs

/-- Boolean test that `sub` occurs as a contiguous substring of the
second character list; models Python's `sub in s`. -/
def charsContain : List Char → List Char → Bool
  | sub, [] => sub.isEmpty
  | sub, b :: bs => charsStartWith sub (b :: bs) || charsContain sub bs

/-- Models Python's `sub in s.lower()` as used by the error classifier in
chat.py (`error_lower = str(e).lower()`; `"connection" in error_lower`). -/
def strContainsLower (s sub : String) : Bool :=
  charsContain sub.data (s.data.map Char.toLower)

/-! ## chat.py: conversation memory, error classification, chat entry points -/

/-- One conversation turn, as stored both in the LangChain buffer memory
(HumanMessage / AIMessage) and in the Streamlit per-mode message lists
(dicts with "role" and "content" keys). -/
structure ChatMsg where
  role : String
  content : String
deriving DecidableEq, Repr

/-- Module-level mutable state of chat.py: whether `_init_llm` has run
(`llm is not None`), and the contents of the two per-mode
ConversationBufferMemory objects (`qa_memory`, `normal_memory`).  The
memory store is an external collaborator (LangChain); per the spec it is
an ordered log of turns supporting append, full read and clear, and a
successful chain invocation appends the user turn and the AI turn to the
chain's own memory while a failed invocation leaves it unchanged. -/
structure ChatState where
  initialized : Bool
  qaMem : List ChatMsg
  normalMem : List ChatMsg
deriving DecidableEq, Repr

/-- Models `_init_llm`: a no-op when already initialized (`if llm is not
None: return`); otherwise it either succeeds, creating the two empty
memories and the chains, or raises (configuration `ValueError`s, the
`ConnectionError`s re-raised from the client constructor, or any other
exception from chain construction).  The outcome of the fallible part is
passed in as `initOutcome`; initialization is modelled as atomic. -/
def init_llm (initOutcome : Except String Unit) (s : ChatState) :
    Except String ChatState :=
  if s.initialized then Except.ok s
  else
    match initOutcome with
    | Except.ok _ => Except.ok { initialized := true, qaMem := [], normalMem := [] }
    | Except.error e => Except.error e

/-- Fixed user-safe message for network/timeout failures (chat.py). -/
def connectionErrMsg : String :=
  "❌ **Connection Error**\n\nUnable to connect to the AI service. Please check:\n• Your internet connection\n• Service availability\n• Network settings"

/-- Fixed user-safe message for upstream credential failures (chat.py). -/
def authenticationErrMsg : String :=
  "❌ **Authentication Error**\n\nInvalid API credentials. Please verify your configuration."

/-- Fixed user-safe message for endpoint/URL misconfiguration (chat.py). -/
def configurationErrMsg : String :=
  "❌ **Configuration Error**\n\nInvalid service endpoint configuration. Please check your settings."

/-- Fixed user-safe message for upstream throttling (chat.py). -/
def rateLimitErrMsg : String :=
  "❌ **Rate Limit Exceeded**\n\nToo many requests. Please wait a moment and try again."

/-- Fixed user-safe message for a missing model/deployment (chat.py). -/
def modelErrMsg : String :=
  "❌ **Model Error**\n\nThe requested AI model is not available. Please check your model configuration."

/-- Fixed user-safe catch-all message (chat.py). -/
def unknownErrMsg : String :=
  "❌ **Error**\n\nSomething went wrong while processing your request. Please try again or check your configuration."

/-- The complete set of fixed, pre-written classified messages that
`get_chat_response`'s except-branch can return. -/
def classifiedMessages : List String :=
  [connectionErrMsg, authenticationErrMsg, configurationErrMsg,
   rateLimitErrMsg, modelErrMsg, unknownErrMsg]

/-- Models the `except Exception as e` classifier inside
`get_chat_response`: lowercases `str(e)` and substring-matches it against
the documented categories, returning the fixed user-safe message. -/
def classify_error (e : String) : String :=
  if strContainsLower e "connection" || strContainsLower e "timeout" ||
      strContainsLower e "connect" then
    connectionErrMsg
  else if strContainsLower e "authentication" || strContainsLower e "unauthorized" ||
      strContainsLower e "api key" then
    authenticationErrMsg
  else if strContainsLower e "endpoint" || strContainsLower e "url" then
    configurationErrMsg
  else if strContainsLower e "rate limit" || strContainsLower e "quota" then
    rateLimitErrMsg
  else if strContainsLower e "model" &&
      (strContainsLower e "not found" || strContainsLower e "deployment") then
    modelErrMsg
  else
    unknownErrMsg

/-- Models `get_chat_response(user_input, mode)`.  `_init_llm()` runs
outside the try block, so its failure propagates as an exception
(`Except.error`).  The chain invocation outcome is passed in as `comp`:
on success the returned text is the response and the chain's buffer
memory gains the human turn and the AI turn; on failure the classifier
turns the exception text into a fixed message, which is returned as an
ordinary string (not raised), with the buffer memory unchanged.  Mode
dispatch is the binary test `mode == "qa"`; anything else uses the
normal-mode chain. -/
def get_chat_response (userInput mode : String) (initOutcome : Except String Unit)
    (comp : Except String String) (s : ChatState) :
    Except String (String × ChatState) :=
  match init_llm initOutcome s with
  | Except.error e => Except.error e
  | Except.ok s1 =>
    match comp with
    | Except.ok resp =>
      if mode == "qa" then
        Except.ok (resp, { s1 with
          qaMem := s1.qaMem ++ [⟨"user", userInput⟩, ⟨"assistant", resp⟩] })
      else
        Except.ok (resp, { s1 with
          normalMem := s1.normalMem ++ [⟨"user", userInput⟩, ⟨"assistant", resp⟩] })
    | Except.error e => Except.ok (classify_error e, s1)

/-- Models `clear_memory(mode)`: after `_init_llm()`, clears the selected
mode's buffer memory and rebuilds that mode's ConversationChain around
the (now empty) memory; the chain is determined by its memory contents
here, so the rebuild carries no extra state.  Mode dispatch is the binary
test `mode == "qa"`. -/
def clear_memory (mode : String) (initOutcome : Except String Unit) (s : ChatState) :
    Except String ChatState :=
  match init_llm initOutcome s with
  | Except.error e => Except.error e
  | Except.ok s1 =>
    if mode == "qa" then Except.ok { s1 with qaMem := [] }
    else Except.ok { s1 with normalMem := [] }

/-- Models `get_memory_messages(mode)`: after `_init_llm()`, returns the
selected mode's buffer messages (and the possibly initialized state).
Mode dispatch is the binary test `mode == "qa"`. -/
def get_memory_messages (mode : String) (initOutcome : Except String Unit)
    (s : ChatState) : Except String (List ChatMsg × ChatState) :=
  match init_llm initOutcome s with
  | Except.error e => Except.error e
  | Except.ok s1 =>
    Except.ok ((if mode == "qa" then s1.qaMem else s1.normalMem), s1)

/-! ## app.py: the per-tab chat handlers -/

/-- Streamlit-level state relevant to the chat tabs: the two per-mode
rendered message lists (`st.session_state.qa_messages` /
`normal_messages`) and chat.py's module state. -/
structure AppState where
  qa_messages : List ChatMsg
  normal_messages : List ChatMsg
  chat : ChatState
deriving DecidableEq, Repr

/-- Prefix of the message recorded by the tab-level `except` handler,
which appends `f"❌ Sorry, I encountered an error: {str(e)}"`. -/
def rawErrPrefixStr : String := "❌ Sorry, I encountered an error: "

/-- Models the QA-tab chat submit handler in app.py: append the user turn
to `qa_messages`, call `get_chat_response(prompt, mode="qa")`, and append
the returned text as the assistant turn; if the call raises (only
possible from `_init_llm`, which runs outside chat.py's try block), the
tab-level `except` handler appends an assistant turn made of the fixed
prefix plus the raw exception text. -/
def qa_tab_handler (prompt : String) (initOutcome : Except String Unit)
    (comp : Except String String) (s : AppState) : AppState :=
  let msgs := s.qa_messages ++ [⟨"user", prompt⟩]
  match get_chat_response prompt "qa" initOutcome comp s.chat with
  | Except.ok (resp, cs) =>
    { s with qa_messages := msgs ++ [⟨"assistant", resp⟩], chat := cs }
  | Except.error e =>
    { s with qa_messages := msgs ++ [⟨"assistant", rawErrPrefixStr ++ e⟩] }

/-- Models the Normal-tab chat submit handler in app.py, symmetric to
the QA tab but operating on `normal_messages` with `mode="normal"`. -/
def normal_tab_handler (prompt : String) (initOutcome : Except String Unit)
    (comp : Except String String) (s : AppState) : AppState :=
  let msgs := s.normal_messages ++ [⟨"user", prompt⟩]
  match get_chat_response prompt "normal" initOutcome comp s.chat with
  | Except.ok (resp, cs) =>
    { s with normal_messages := msgs ++ [⟨"assistant", resp⟩], chat := cs }
  | Except.error e =>
    { s with normal_messages := msgs ++ [⟨"assistant", rawErrPrefixStr ++ e⟩] }

/-! ## app.py: session registry and auth gate -/

/-- The process-wide active-session table `_ACTIVE_SESSIONS`: a Python
dict from session id to last-activity timestamp, modelled as an
association list whose keys are unique along every reachable state. -/
abbrev Registry := List (String × Int)

/-- Key list of a registry. -/
def regKeys (r : Registry) : List String := r.map Prod.fst

/-- Uniqueness of the keys; holds of every state reachable from the
empty table, mirroring Python dict semantics. -/
def keysNodup (r : Registry) : Prop := (regKeys r).Nodup

/-- Models `sid in _ACTIVE_SESSIONS`. -/
def containsKey (r : Registry) (k : String) : Bool :=
  r.any (fun p => p.1 == k)

/-- Models `_ACTIVE_SESSIONS.get(sid)`: the timestamp stored at a key. -/
def lookupTs (r : Registry) (k : String) : Option Int :=
  (r.find? (fun p => p.1 == k)).map Prod.snd

/-- Models `_ACTIVE_SESSIONS[sid] = ts`: update in place when the key
exists, append otherwise (Python dict assignment). -/
def setKey (r : Registry) (k : String) (v : Int) : Registry :=
  if containsKey r k then
    r.map (fun p => if p.1 == k then (k, v) else p)
  else r ++ [(k, v)]

/-- Models `_ACTIVE_SESSIONS.pop(sid, None)`. -/
def eraseKey (r : Registry) (k : String) : Registry :=
  r.filter (fun p => p.1 != k)

/-- The effective time-to-live used by `_prune_sessions`:
`max(5 * 60, auth_cfg.get("session_minutes", 60) * 60)` — note the
five-minute floor applied on top of the configured value. -/
def effectiveTTL (mins : Int) : Int := max (5 * 60) (mins * 60)

/-- Models `_prune_sessions()`: removes every entry whose age at `now`
strictly exceeds the effective TTL. -/
def pruneReg (mins now : Int) (r : Registry) : Registry :=
  r.filter (fun p => decide (now - p.2 ≤ effectiveTTL mins))

/-- Static configuration read at startup: the shared password, the
configured `session_minutes`, and the keyed hash used to sign URL
tokens (an abstract stand-in for `hmac.new(key, msg, sha256).hexdigest()`). -/
structure Config where
  shared : String
  session_minutes : Int
  hmacF : String → String → String

/-- Per-browser Streamlit `st.session_state` fields used by the auth
gate: `auth_ok`, `login_ts` and `session_id`. -/
structure Browser where
  auth_ok : Bool
  login_ts : Int
  session_id : Option String
deriving DecidableEq, Repr

/-- A fresh browser session: no auth flag, no session id. -/
def Browser.initB : Browser := ⟨false, 0, none⟩

/-- Whole-system state: the shared registry, the per-browser states
(indexed by an abstract browser identity), and the time of the most
recent event. -/
structure Sys where
  reg : Registry
  browsers : Nat → Browser
  now : Int

/-- The state at process start: empty registry, all browsers fresh. -/
def initSys : Sys := { reg := [], browsers := fun _ => Browser.initB, now := 0 }

/-- Pointwise update of the browser map. -/
def updateBrowser (bs : Nat → Browser) (i : Nat) (br : Browser) : Nat → Browser :=
  fun j => if j = i then br else bs j

/-- Models the body of `_can_login_with_concurrency_limit` after the
prune: allow if this browser's session id is truthy and already
registered, otherwise require the active count to be strictly below the
cap. -/
def canLoginCheck (maxSessions : Nat) (sidOpt : Option String) (reg : Registry) : Bool :=
  match sidOpt with
  | some sid =>
    if sid != "" && containsKey reg sid then true
    else decide (reg.length < maxSessions)
  | none => decide (reg.length < maxSessions)

/-- Models `_can_login_with_concurrency_limit(max_sessions=2)`: prunes
stale sessions (the prune mutates the shared table, so the pruned table
is returned as well) and then applies `canLoginCheck`. -/
def can_login_with_concurrency_limit (mins now : Int) (maxSessions : Nat)
    (sidOpt : Option String) (reg : Registry) : Bool × Registry :=
  let reg1 := pruneReg mins now reg
  (canLoginCheck maxSessions sidOpt reg1, reg1)

/-- Models `_touch_session()` for a known session id: prune, then record
the current time for the id. -/
def touch_session (mins now : Int) (sid : String) (reg : Registry) : Registry :=
  setKey (pruneReg mins now reg) sid now

/-- Outcome of a login form submission. -/
inductive LoginOutcome where
  | success : LoginOutcome
  | failure (msg : String) : LoginOutcome
deriving DecidableEq, Repr

/-- The single error message shown by `render_login` for a rejected
submission, covering both a wrong password and a full session table. -/
def loginFailureMsg : String := "Invalid password or maximum concurrent users reached"

/-- Message shown when no shared password is configured. -/
def noSharedPasswordMsg : String :=
  "Shared password not configured. Set [auth].shared_password in Secrets."

/-- Models the submitted branch of `render_login()`: when the shared
password is configured, the attempt succeeds iff the submitted password
equals it (Python `and` short-circuits, so the concurrency check — and
its prune side effect — only runs when the password matches).  On
success the browser is marked authenticated with a fresh `login_ts`,
`_ensure_session_id` keeps the existing id or mints `fresh`, and
`_touch_session` registers it.  On failure the single combined error
message is shown.  Returns (outcome, browser state, registry). -/
def render_login_submit (cfg : Config) (password fresh : String) (t : Int)
    (br : Browser) (reg : Registry) : LoginOutcome × Browser × Registry :=
  if cfg.shared == "" then (LoginOutcome.failure noSharedPasswordMsg, br, reg)
  else if password == cfg.shared then
    let r1 := can_login_with_concurrency_limit cfg.session_minutes t 2 br.session_id reg
    if r1.1 then
      let sid := br.session_id.getD fresh
      (LoginOutcome.success, ⟨true, t, some sid⟩,
        touch_session cfg.session_minutes t sid r1.2)
    else (LoginOutcome.failure loginFailureMsg, br, r1.2)
  else (LoginOutcome.failure loginFailureMsg, br, reg)

/-- Models the URL-token restore guard at the top of app.py: the `auth`
and `sig` query parameters and the shared password must be truthy
(nonempty), the signature must equal the keyed hash of the token under
the shared password (compared with `hmac.compare_digest`, which is
extensionally equality), and the token must already be a registered
session id. -/
def restore_guard (cfg : Config) (tok sig : String) (reg : Registry) : Bool :=
  tok != "" && sig != "" && cfg.shared != "" &&
    cfg.hmacF cfg.shared tok == sig && containsKey reg tok

/-- Models the URL-token restore block: when the guard passes, the
browser adopts the token as its session id, is marked authenticated with
a fresh `login_ts`, and the registry entry's timestamp is refreshed (no
prune happens on this path).  Otherwise nothing changes. -/
def restoreStep (cfg : Config) (b : Nat) (tok sig : String) (t : Int) (s : Sys) : Sys :=
  if restore_guard cfg tok sig s.reg then
    { reg := setKey s.reg tok t,
      browsers := updateBrowser s.browsers b ⟨true, t, some tok⟩,
      now := t }
  else { s with now := t }

/-- A login form submission by browser `b` at time `t`, driven by
`render_login_submit`. -/
def stepLogin (cfg : Config) (b : Nat) (password fresh : String) (t : Int) (s : Sys) : Sys :=
  let r := render_login_submit cfg password fresh t (s.browsers b) s.reg
  { reg := r.2.2, browsers := updateBrowser s.browsers b r.2.1, now := t }

/-- Models an authenticated request: `is_authenticated()` — if the
browser holds `auth_ok` and `login_ts` is truthy and older than
`session_minutes * 60`, the session is removed from the registry
(`_remove_session` only pops a truthy id) and the browser state is
cleared; otherwise the session id is re-inserted into the registry if it
is truthy but absent, and on success the subsequent `_touch_session()`
prunes and refreshes the id (minting `fresh` if the browser somehow has
none). -/
def stepAuthreq (cfg : Config) (b : Nat) (fresh : String) (t : Int) (s : Sys) : Sys :=
  let br := s.browsers b
  if br.auth_ok then
    if br.login_ts ≠ 0 ∧ cfg.session_minutes * 60 < t - br.login_ts then
      let reg1 :=
        match br.session_id with
        | some sid => if sid != "" then eraseKey s.reg sid else s.reg
        | none => s.reg
      { reg := reg1, browsers := updateBrowser s.browsers b Browser.initB, now := t }
    else
      let reg1 :=
        match br.session_id with
        | some sid =>
          if sid != "" && !containsKey s.reg sid then setKey s.reg sid t else s.reg
        | none => s.reg
      let sid2 := br.session_id.getD fresh
      { reg := touch_session cfg.session_minutes t sid2 reg1,
        browsers := updateBrowser s.browsers b { br with session_id := some sid2 },
        now := t }
  else { s with now := t }

/-- The request kinds quantified over by the capacity claim: login
attempts, URL-token restore requests, and authenticated requests.
`fresh` carries the uuid that `_ensure_session_id` would mint. -/
inductive Ev where
  | login (b : Nat) (password : String) (fresh : String) (t : Int) : Ev
  | restore (b : Nat) (tok sig : String) (t : Int) : Ev
  | authreq (b : Nat) (fresh : String) (t : Int) : Ev
deriving DecidableEq, Repr

/-- Timestamp of an event. -/
def evTime : Ev → Int
  | Ev.login _ _ _ t => t
  | Ev.restore _ _ _ t => t
  | Ev.authreq _ _ t => t

/-- Whether an event is a URL-token restore request. -/
def Ev.isRestoreEv : Ev → Bool
  | Ev.restore _ _ _ _ => true
  | _ => false

/-- One step of the system. -/
def step (cfg : Config) (s : Sys) (e : Ev) : Sys :=
  match e with
  | Ev.login b pw fresh t => stepLogin cfg b pw fresh t s
  | Ev.restore b tok sig t => restoreStep cfg b tok sig t s
  | Ev.authreq b fresh t => stepAuthreq cfg b fresh t s

/-- Running a sequence of events. -/
def run (cfg : Config) (s : Sys) (evs : List Ev) : Sys :=
  evs.foldl (step cfg) s

/-- Freshness of a uuid minted by `_ensure_session_id`: it collides
neither with a registered session id nor with any browser's current id
(uuid4 values are unique). -/
def FreshFor (s : Sys) (fresh : String) : Prop :=
  containsKey s.reg fresh = false ∧
  ∀ b : Nat, (s.browsers b).session_id ≠ some fresh

/-- Freshness side condition of an event: only login events mint ids. -/
def evFresh (s : Sys) : Ev → Prop
  | Ev.login _ _ fresh _ => FreshFor s fresh
  | _ => True

/-- Admissibility of an event in a state: wall-clock time never runs
backwards, timestamps are positive epoch times, and minted uuids are
fresh. -/
def GoodEv (s : Sys) (e : Ev) : Prop :=
  s.now ≤ evTime e ∧ 0 < evTime e ∧ evFresh s e

/-- Admissibility of a whole trace. -/
def GoodTrace (cfg : Config) : Sys → List Ev → Prop
  | _, [] => True
  | s, e :: es => GoodEv s e ∧ GoodTrace cfg (step cfg s e) es

/-- Inductive invariant carried through the capacity proof: registry
keys are unique, the active count is within the cap, registry
timestamps and login timestamps never lie in the future, session ids are
not shared across browsers, and every authenticated browser either still
owns a registry entry at least as recent as its login or has been pruned
and is then necessarily past its own expiry. -/
structure Inv (cfg : Config) (s : Sys) : Prop where
  nodup : keysNodup s.reg
  capOk : s.reg.length ≤ 2
  tsLe : ∀ p ∈ s.reg, p.2 ≤ s.now
  uniq : ∀ b b' : Nat, b ≠ b' → ∀ sid : String,
    (s.browsers b).session_id = some sid → (s.browsers b').session_id ≠ some sid
  authInv : ∀ b : Nat, (s.browsers b).auth_ok = true →
    ∃ sid : String, (s.browsers b).session_id = some sid ∧
      0 < (s.browsers b).login_ts ∧ (s.browsers b).login_ts ≤ s.now ∧
      ((∃ ts : Int, lookupTs s.reg sid = some ts ∧ (s.browsers b).login_ts ≤ ts) ∨
       (containsKey s.reg sid = false ∧
        cfg.session_minutes * 60 < s.now - (s.browsers b).login_ts))

/-! ## Concrete scenario used to refute the unrestricted capacity claim -/

/-- Concrete configuration for the capacity counterexample: shared
password "pw", the default 60 session minutes, and a concrete injective
keyed hash standing in for HMAC-SHA256. -/
def cfgCx : Config := ⟨"pw", 60, fun k msg => k ++ ":" ++ msg⟩

/-- Counterexample trace: browser 0 logs in (session "A"); browser 1
restores "A" from the signed URL token at time 3000, gaining a fresh
`login_ts`; browser 0's request at 3700 finds its own login expired and
removes "A" from the registry; browsers 2 and 3 log in, filling the cap;
browser 1 — authenticated, unexpired, but no longer registered — makes a
request and `is_authenticated` re-inserts "A", giving three registered
sessions. -/
def evsCx : List Ev :=
  [Ev.login 0 "pw" "A" 1,
   Ev.restore 1 "A" "pw:A" 3000,
   Ev.authreq 0 "Z" 3700,
   Ev.login 2 "pw" "B" 3701,
   Ev.login 3 "pw" "C" 3702,
   Ev.authreq 1 "Z" 3703]

/-- Browser 0's state after the first login of the counterexample. -/
def brCx0 : Browser := ⟨true, 1, some "A"⟩

/-- Browser 1's state after restoring the URL token at time 3000. -/
def brCx1 : Browser := ⟨true, 3000, some "A"⟩

/-- Browser 2's state after logging in at time 3701. -/
def brCx2 : Browser := ⟨true, 3701, some "B"⟩

/-- Browser 3's state after logging in at time 3702. -/
def brCx3 : Browser := ⟨true, 3702, some "C"⟩

/-- Counterexample system state after event 1. -/
def sCx1 : Sys :=
  { reg := [("A", 1)],
    browsers := updateBrowser (fun _ => Browser.initB) 0 brCx0, now := 1 }

/-- Counterexample system state after event 2. -/
def sCx2 : Sys :=
  { reg := [("A", 3000)],
    browsers := updateBrowser sCx1.browsers 1 brCx1, now := 3000 }

/-- Counterexample system state after event 3 (browser 0 expired; "A"
removed from the registry). -/
def sCx3 : Sys :=
  { reg := [],
    browsers := updateBrowser sCx2.browsers 0 Browser.initB, now := 3700 }

/-- Counterexample system state after event 4. -/
def sCx4 : Sys :=
  { reg := [("B", 3701)],
    browsers := updateBrowser sCx3.browsers 2 brCx2, now := 3701 }

/-- Counterexample system state after event 5: the cap of 2 is reached. -/
def sCx5 : Sys :=
  { reg := [("B", 3701), ("C", 3702)],
    browsers := updateBrowser sCx4.browsers 3 brCx3, now := 3702 }

/-- Concrete initialization failure text: the `ValueError` raised by
`_init_llm` when the API key is missing. -/
def initFailMsg : String :=
  "AZURE_OPENAI_API_KEY not found. Set it in Streamlit Secrets or .env."

/-! ## Helper lemmas about chat.py's state -/

theorem init_llm_ok_initialized {initO : Except String Unit} {s s0 : ChatState}
    (h : init_llm initO s = Except.ok s0) : s0.initialized = true := by
  unfold init_llm at h
  split at h
  · cases h
    assumption
  · cases initO with
    | ok u => cases h; rfl
    | error e => cases h

theorem init_llm_of_initialized {s : ChatState} (initO : Except String Unit)
    (h : s.initialized = true) : init_llm initO s = Except.ok s := by
  unfold init_llm
  rw [if_pos h]

/-! ## Registry lemmas -/

theorem containsKey_iff {r : Registry} {k : String} :
    containsKey r k = true ↔ ∃ p ∈ r, p.1 = k := by
  simp [containsKey, List.any_eq_true, beq_iff_eq]

theorem containsKey_eq_false {r : Registry} {k : String} :
    containsKey r k = false ↔ ∀ p ∈ r, p.1 ≠ k := by
  rw [← Bool.not_eq_true, containsKey_iff]
  push_neg
  rfl

theorem mem_pruneReg {mins now : Int} {r : Registry} {p : String × Int} :
    p ∈ pruneReg mins now r ↔ p ∈ r ∧ now - p.2 ≤ effectiveTTL mins := by
  simp [pruneReg, List.mem_filter]

theorem length_pruneReg_le (mins now : Int) (r : Registry) :
    (pruneReg mins now r).length ≤ r.length :=
  List.length_filter_le _ r

theorem keysNodup_filter {r : Registry} (q : String × Int → Bool)
    (h : keysNodup r) : keysNodup (r.filter q) := by
  unfold keysNodup regKeys at *
  exact h.sublist ((List.filter_sublist r).map Prod.fst)

theorem keysNodup_pruneReg {mins now : Int} {r : Registry} (h : keysNodup r) :
    keysNodup (pruneReg mins now r) :=
  keysNodup_filter _ h

theorem pruneReg_idem (mins now : Int) (r : Registry) :
    pruneReg mins now (pruneReg mins now r) = pruneReg mins now r := by
  unfold pruneReg
  rw [List.filter_filter]
  congr 1
  funext p
  cases h : decide (now - p.2 ≤ effectiveTTL mins) <;> simp [h]

theorem containsKey_pruneReg_false {mins now : Int} {r : Registry} {k : String}
    (h : containsKey r k = false) : containsKey (pruneReg mins now r) k = false := by
  rw [containsKey_eq_false] at h ⊢
  exact fun p hp => h p (mem_pruneReg.mp hp).1

theorem nodup_key_unique {r : Registry} (h : keysNodup r) {p q : String × Int}
    (hp : p ∈ r) (hq : q ∈ r) (hk : p.1 = q.1) : p = q := by
  induction r with
  | nil => cases hp
  | cons a as ih =>
    rw [keysNodup, regKeys, List.map_cons, List.nodup_cons] at h
    rcases List.mem_cons.mp hp with hp1 | hp1 <;> rcases List.mem_cons.mp hq with hq1 | hq1
    · rw [hp1, hq1]
    · exfalso
      apply h.1
      rw [← hp1, hk]
      exact List.mem_map_of_mem Prod.fst hq1
    · exfalso
      apply h.1
      rw [← hq1, ← hk]
      exact List.mem_map_of_mem Prod.fst hp1
    · exact ih h.2 hp1 hq1

theorem lookupTs_eq_some_iff {r : Registry} {k : String} {v : Int} (h : keysNodup r) :
    lookupTs r k = some v ↔ (k, v) ∈ r := by
  constructor
  · intro hl
    unfold lookupTs at hl
    rcases Option.map_eq_some'.mp hl with ⟨p, hfind, hsnd⟩
    have hmem := List.mem_of_find?_eq_some hfind
    have hpred := List.find?_some hfind
    have hkey : p.1 = k := by simpa using hpred
    have hpv : p = (k, v) := by
      cases p with
      | mk a b =>
        simp only [Prod.mk.injEq]
        exact ⟨hkey, hsnd⟩
    rw [← hpv]
    exact hmem
  · intro hmem
    induction r with
    | nil => cases hmem
    | cons a as ih =>
      rcases List.mem_cons.mp hmem with hm1 | hm1
      · rw [← hm1]
        simp [lookupTs, List.find?_cons]
      · rw [keysNodup, regKeys, List.map_cons, List.nodup_cons] at h
        have hne : (a.1 == k) = false := by
          rw [beq_eq_false_iff_ne]
          intro hak
          apply h.1
          rw [hak]
          exact List.mem_map_of_mem Prod.fst hm1
        unfold lookupTs at ih ⊢
        simp only [List.find?_cons, hne, cond_false]
        exact ih h.2 hm1

theorem containsKey_of_lookupTs {r : Registry} {k : String} {v : Int}
    (h : lookupTs r k = some v) : containsKey r k = true := by
  unfold lookupTs at h
  rcases Option.map_eq_some'.mp h with ⟨p, hfind, _⟩
  have hpred := List.find?_some hfind
  have hkey : p.1 = k := by simpa using hpred
  exact containsKey_iff.mpr ⟨p, List.mem_of_find?_eq_some hfind, hkey⟩

theorem lookupTs_of_containsKey {r : Registry} {k : String}
    (h : containsKey r k = true) : ∃ v, lookupTs r k = some v := by
  induction r with
  | nil => simp [containsKey] at h
  | cons a as ih =>
    cases hak : (a.1 == k) with
    | true =>
      refine ⟨a.2, ?_⟩
      unfold lookupTs
      simp [List.find?_cons, hak]
    | false =>
      have h2 : containsKey as k = true := by
        rcases containsKey_iff.mp h with ⟨p, hp, hk⟩
        rcases List.mem_cons.mp hp with hp1 | hp1
        · exfalso
          rw [← hp1] at hak
          rw [beq_eq_false_iff_ne] at hak
          exact hak hk
        · exact containsKey_iff.mpr ⟨p, hp1, hk⟩
      rcases ih h2 with ⟨v, hv⟩
      refine ⟨v, ?_⟩
      unfold lookupTs at hv ⊢
      simp only [List.find?_cons, hak, cond_false]
      exact hv

theorem lookupTs_pruneReg_kept {mins now : Int} {r : Registry} {k : String} {v : Int}
    (h : keysNodup r) (hl : lookupTs r k = some v) (hkeep : now - v ≤ effectiveTTL mins) :
    lookupTs (pruneReg mins now r) k = some v := by
  rw [lookupTs_eq_some_iff (keysNodup_pruneReg h)]
  rw [lookupTs_eq_some_iff h] at hl
  exact mem_pruneReg.mpr ⟨hl, hkeep⟩

theorem containsKey_pruneReg_dropped {mins now : Int} {r : Registry} {k : String} {v : Int}
    (h : keysNodup r) (hl : lookupTs r k = some v) (hdrop : effectiveTTL mins < now - v) :
    containsKey (pruneReg mins now r) k = false := by
  rw [containsKey_eq_false]
  intro p hp hk
  rcases mem_pruneReg.mp hp with ⟨hpr, hple⟩
  rw [lookupTs_eq_some_iff h] at hl
  have : p = (k, v) := nodup_key_unique h hpr hl (by rw [hk])
  rw [this] at hple
  exact absurd hple (not_le.mpr hdrop)

theorem mem_setKey {r : Registry} {k : String} {v : Int} {p : String × Int}
    (h : p ∈ setKey r k v) : p = (k, v) ∨ p ∈ r := by
  unfold setKey at h
  split at h
  · rcases List.mem_map.mp h with ⟨q, hq, hmap⟩
    by_cases hqk : (q.1 == k) = true
    · left; rw [← hmap]; simp [hqk]
    · right
      rw [← hmap]
      simp only [Bool.not_eq_true] at hqk
      rw [if_neg (by simp [hqk])]
      exact hq
  · rcases List.mem_append.mp h with hq | hq
    · right; exact hq
    · left; simpa using hq

theorem regKeys_setKey_mem {r : Registry} {k : String} {v : Int}
    (h : containsKey r k = true) : regKeys (setKey r k v) = regKeys r := by
  unfold setKey
  rw [if_pos h]
  unfold regKeys
  rw [List.map_map]
  apply List.map_congr_left
  intro p _
  by_cases hp : p.1 = k
  · simp [hp]
  · simp [hp]

theorem regKeys_setKey_new {r : Registry} {k : String} {v : Int}
    (h : containsKey r k = false) : regKeys (setKey r k v) = regKeys r ++ [k] := by
  unfold setKey
  rw [if_neg (by simp [h])]
  unfold regKeys
  rw [List.map_append]
  rfl

theorem keysNodup_setKey {r : Registry} {k : String} {v : Int} (h : keysNodup r) :
    keysNodup (setKey r k v) := by
  cases hc : containsKey r k
  · unfold keysNodup
    rw [regKeys_setKey_new hc]
    rw [List.nodup_append]
    refine ⟨h, List.nodup_singleton k, ?_⟩
    intro a ha hb
    rcases List.mem_singleton.mp hb with rfl
    rcases List.mem_map.mp ha with ⟨p, hp, hk⟩
    rw [containsKey_eq_false] at hc
    exact hc p hp hk
  · unfold keysNodup
    rw [regKeys_setKey_mem hc]
    exact h

theorem length_setKey_mem {r : Registry} {k : String} {v : Int}
    (h : containsKey r k = true) : (setKey r k v).length = r.length := by
  unfold setKey
  rw [if_pos h, List.length_map]

theorem length_setKey_new {r : Registry} {k : String} {v : Int}
    (h : containsKey r k = false) : (setKey r k v).length = r.length + 1 := by
  unfold setKey
  rw [if_neg (by simp [h]), List.length_append, List.length_singleton]

theorem containsKey_setKey_self (r : Registry) (k : String) (v : Int) :
    containsKey (setKey r k v) k = true := by
  apply containsKey_iff.mpr
  unfold setKey
  cases hc : containsKey r k
  · rw [if_neg (by simp)]
    exact ⟨(k, v), List.mem_append_right _ (List.mem_singleton_self _), rfl⟩
  · rw [if_pos rfl]
    rcases containsKey_iff.mp hc with ⟨p, hp, hk⟩
    refine ⟨(k, v), List.mem_map.mpr ⟨p, hp, ?_⟩, rfl⟩
    rw [if_pos (beq_iff_eq.mpr hk)]

theorem containsKey_setKey_other {r : Registry} {k k' : String} (v : Int)
    (h : k' ≠ k) : containsKey (setKey r k v) k' = containsKey r k' := by
  cases hc : containsKey r k'
  · rw [containsKey_eq_false] at hc ⊢
    intro p hp
    rcases mem_setKey hp with rfl | hpr
    · exact h.symm
    · exact hc p hpr
  · rcases containsKey_iff.mp hc with ⟨p, hp, hk⟩
    apply containsKey_iff.mpr
    unfold setKey
    cases hck : containsKey r k
    · rw [if_neg (by simp)]
      exact ⟨p, List.mem_append_left _ hp, hk⟩
    · rw [if_pos rfl]
      have hpk : (p.1 == k) = false := by
        rw [beq_eq_false_iff_ne]
        rw [hk]; exact h
      exact ⟨p, List.mem_map.mpr ⟨p, hp, by rw [if_neg (by simp [hpk])]⟩, hk⟩

theorem lookupTs_setKey_self {r : Registry} (h : keysNodup r) (k : String) (v : Int) :
    lookupTs (setKey r k v) k = some v := by
  rw [lookupTs_eq_some_iff (keysNodup_setKey h)]
  unfold setKey
  cases hc : containsKey r k
  · rw [if_neg (by simp)]
    exact List.mem_append_right _ (List.mem_singleton_self _)
  · rw [if_pos rfl]
    rcases containsKey_iff.mp hc with ⟨p, hp, hk⟩
    exact List.mem_map.mpr ⟨p, hp, by rw [if_pos (beq_iff_eq.mpr hk)]⟩

theorem lookupTs_setKey_other {r : Registry} {k k' : String} (v : Int) (h : keysNodup r)
    (hne : k' ≠ k) : lookupTs (setKey r k v) k' = lookupTs r k' := by
  cases hl : lookupTs r k'
  · have hc : containsKey r k' = false := by
      cases hc : containsKey r k'
      · rfl
      · rcases lookupTs_of_containsKey hc with ⟨w, hw⟩
        rw [hl] at hw; cases hw
    have : containsKey (setKey r k v) k' = false := by
      rw [containsKey_setKey_other v hne]; exact hc
    cases hl2 : lookupTs (setKey r k v) k'
    · rfl
    · rw [containsKey_of_lookupTs hl2] at this; cases this
  · rw [lookupTs_eq_some_iff (keysNodup_setKey h)]
    rw [lookupTs_eq_some_iff h] at hl
    unfold setKey
    cases hc : containsKey r k
    · rw [if_neg (by simp)]
      exact List.mem_append_left _ hl
    · rw [if_pos rfl]
      refine List.mem_map.mpr ⟨_, hl, ?_⟩
      rw [if_neg (by simp [beq_eq_false_iff_ne]; exact hne)]

theorem mem_eraseKey {r : Registry} {k : String} {p : String × Int}
    (h : p ∈ eraseKey r k) : p ∈ r ∧ p.1 ≠ k := by
  unfold eraseKey at h
  have := List.mem_filter.mp h
  exact ⟨this.1, by simpa using this.2⟩

theorem length_eraseKey_le (r : Registry) (k : String) :
    (eraseKey r k).length ≤ r.length :=
  List.length_filter_le _ r

theorem keysNodup_eraseKey {r : Registry} (k : String) (h : keysNodup r) :
    keysNodup (eraseKey r k) :=
  keysNodup_filter _ h

theorem containsKey_eraseKey_self (r : Registry) (k : String) :
    containsKey (eraseKey r k) k = false := by
  rw [containsKey_eq_false]
  exact fun p hp => (mem_eraseKey hp).2

theorem containsKey_eraseKey_other {r : Registry} {k k' : String} (h : k' ≠ k) :
    containsKey (eraseKey r k) k' = containsKey r k' := by
  cases hc : containsKey r k'
  · rw [containsKey_eq_false] at hc ⊢
    exact fun p hp => hc p (mem_eraseKey hp).1
  · rcases containsKey_iff.mp hc with ⟨p, hp, hk⟩
    apply containsKey_iff.mpr
    refine ⟨p, ?_, hk⟩
    unfold eraseKey
    apply List.mem_filter.mpr
    refine ⟨hp, by simp [hk, h]⟩

theorem lookupTs_eraseKey_other {r : Registry} {k k' : String} (h : keysNodup r)
    (hne : k' ≠ k) : lookupTs (eraseKey r k) k' = lookupTs r k' := by
  cases hl : lookupTs r k'
  · cases hl2 : lookupTs (eraseKey r k) k'
    · rfl
    · exfalso
      have hc := containsKey_of_lookupTs hl2
      rw [containsKey_eraseKey_other hne] at hc
      rcases lookupTs_of_containsKey hc with ⟨w, hw⟩
      rw [hl] at hw; cases hw
  · rw [lookupTs_eq_some_iff (keysNodup_eraseKey k h)]
    rw [lookupTs_eq_some_iff h] at hl
    unfold eraseKey
    exact List.mem_filter.mpr ⟨hl, by simp [hne]⟩

theorem length_filter_lt_of_dropped (r : Registry) (q : String × Int → Bool)
    (p : String × Int) (hp : p ∈ r) (hq : q p = false) :
    (r.filter q).length < r.length := by
  induction r with
  | nil => cases hp
  | cons a as ih =>
    rcases List.mem_cons.mp hp with hp1 | hp1
    · rw [List.filter_cons, if_neg (by rw [hp1] at hq; simp [hq])]
      exact Nat.lt_succ_of_le (List.length_filter_le _ _)
    · rw [List.filter_cons]
      split
      · exact Nat.succ_lt_succ (ih hp1)
      · exact Nat.lt_succ_of_lt (ih hp1)

theorem length_touch_le_of_mem {mins now : Int} {r : Registry} {k : String}
    (h : containsKey r k = true) :
    (setKey (pruneReg mins now r) k now).length ≤ r.length := by
  cases hc : containsKey (pruneReg mins now r) k
  · rw [length_setKey_new hc]
    rcases containsKey_iff.mp h with ⟨p, hp, hk⟩
    have hq : decide (now - p.2 ≤ effectiveTTL mins) = false := by
      cases hd : decide (now - p.2 ≤ effectiveTTL mins)
      · rfl
      · exfalso
        have : p ∈ pruneReg mins now r :=
          mem_pruneReg.mpr ⟨hp, of_decide_eq_true hd⟩
        rw [containsKey_eq_false] at hc
        exact hc p this hk
    have := length_filter_lt_of_dropped r
      (fun p => decide (now - p.2 ≤ effectiveTTL mins)) p hp hq
    unfold pruneReg
    omega
  · rw [length_setKey_mem hc]
    exact length_pruneReg_le mins now r

/-! ## Claim C2 -/

/-- C2: every failure of the completion call inside the send-message
operation yields the fixed classified user-safe message as the returned
text (a timeout or connection failure yields the ConnectionError
message), and the mode's rendered history gains the user turn followed
by an assistant turn whose content is exactly that classified error
text — the error message becomes part of the remembered conversation. -/
theorem c2_completion_failure_recorded (prompt e : String) (s : AppState) :
    (qa_tab_handler prompt (Except.ok ()) (Except.error e) s).qa_messages =
        s.qa_messages ++ [⟨"user", prompt⟩, ⟨"assistant", classify_error e⟩] ∧
    (normal_tab_handler prompt (Except.ok ()) (Except.error e) s).normal_messages =
        s.normal_messages ++ [⟨"user", prompt⟩, ⟨"assistant", classify_error e⟩] ∧
    classify_error e ∈ classifiedMessages ∧
    ((strContainsLower e "timeout" = true ∨ strContainsLower e "connection" = true) →
      classify_error e = connectionErrMsg) := by
  have hmem : classify_error e ∈ classifiedMessages := by
    unfold classify_error classifiedMessages
    split
    · simp
    · split
      · simp
      · split
        · simp
        · split
          · simp
          · split <;> simp
  refine ⟨?_, ?_, hmem, ?_⟩
  · unfold qa_tab_handler get_chat_response init_llm
    cases hinit : s.chat.initialized <;> simp [hinit]
  · unfold normal_tab_handler get_chat_response init_llm
    cases hinit : s.chat.initialized <;> simp [hinit]
  · intro h
    unfold classify_error
    rcases h with h | h <;> rw [if_pos (by simp [h])]

/-- Witness for C2 at a concrete timeout failure on an initialized
state. -/
theorem c2_witness :
    (qa_tab_handler "hi" (Except.ok ()) (Except.error "Request timeout")
        ⟨[], [], ⟨true, [], []⟩⟩).qa_messages =
      [⟨"user", "hi"⟩, ⟨"assistant", connectionErrMsg⟩] ∧
    classify_error "Request timeout" = connectionErrMsg := by
  have h := c2_completion_failure_recorded "hi" "Request timeout" ⟨[], [], ⟨true, [], []⟩⟩
  have ht : classify_error "Request timeout" = connectionErrMsg :=
    h.2.2.2 (Or.inl (by decide))
  refine ⟨?_, ht⟩
  rw [h.1, ht]
  rfl

/-! ## Claim C3 -/

/-- C3: URL-token session restoration succeeds only when the signature
equals the keyed hash of the id under the shared secret (compared by
`hmac.compare_digest`, extensionally equality) and the id is currently
registered; any token with a signature not produced with the shared
secret is rejected, as is a validly signed but unregistered id, and a
rejected token leaves the state unchanged (except the clock). -/
theorem c3_restore_requires_signature_and_registration (cfg : Config) (b : Nat)
    (tok sig : String) (t : Int) (s : Sys) :
    (restore_guard cfg tok sig s.reg = true ↔
      (tok ≠ "" ∧ sig ≠ "" ∧ cfg.shared ≠ "" ∧
        cfg.hmacF cfg.shared tok = sig ∧ containsKey s.reg tok = true)) ∧
    (cfg.hmacF cfg.shared tok ≠ sig → restore_guard cfg tok sig s.reg = false) ∧
    (containsKey s.reg tok = false → restore_guard cfg tok sig s.reg = false) ∧
    (restore_guard cfg tok sig s.reg = false →
      restoreStep cfg b tok sig t s = { s with now := t }) := by
  have hiff : restore_guard cfg tok sig s.reg = true ↔
      (tok ≠ "" ∧ sig ≠ "" ∧ cfg.shared ≠ "" ∧
        cfg.hmacF cfg.shared tok = sig ∧ containsKey s.reg tok = true) := by
    unfold restore_guard
    simp [Bool.and_eq_true, bne_iff_ne, and_assoc]
  refine ⟨hiff, ?_, ?_, ?_⟩
  · intro hne
    cases hg : restore_guard cfg tok sig s.reg
    · rfl
    · exact absurd (hiff.mp hg).2.2.2.1 hne
  · intro hnc
    cases hg : restore_guard cfg tok sig s.reg
    · rfl
    · rw [(hiff.mp hg).2.2.2.2] at hnc
      cases hnc
  · intro hg
    unfold restoreStep
    rw [if_neg (by simp [hg])]

/-- Witness for C3: a token with a mutated signature and an unregistered
token are both rejected. -/
theorem c3_witness :
    restore_guard cfgCx "A" "pw:BAD" [("A", 1)] = false ∧
    restore_guard cfgCx "Z" "pw:Z" [("A", 1)] = false := by
  constructor
  · exact (c3_restore_requires_signature_and_registration cfgCx 0 "A" "pw:BAD" 5
      ⟨[("A", 1)], fun _ => Browser.initB, 0⟩).2.1 (by decide)
  · exact (c3_restore_requires_signature_and_registration cfgCx 0 "Z" "pw:Z" 5
      ⟨[("A", 1)], fun _ => Browser.initB, 0⟩).2.2.1 (by decide)

/-! ## Claim C4 -/

/-- C4 counterexample: with `session_minutes = 1` the claimed TTL is 60
seconds, yet a session 120 seconds stale survives the prune and is still
treated as active, because `_prune_sessions` applies a five-minute floor
(`ttl = max(5 * 60, session_minutes * 60)`). -/
theorem c4_counterexample :
    (1000 : Int) - 880 > 1 * 60 ∧
    pruneReg 1 1000 [("s", 880)] = [("s", 880)] ∧
    containsKey (pruneReg 1 1000 [("s", 880)]) "s" = true := by
  refine ⟨by decide, by decide, by decide⟩

/-- C4 amended: the prune step removes exactly the sessions whose age
exceeds the effective TTL `max(5 * 60, session_minutes * 60)` — the
configured TTL with a five-minute floor — so a session remains in the
registry after pruning iff it was present and `now - lastActiveAt` is at
most that effective TTL. -/
theorem c4_amended_prune_effective_ttl (mins now : Int) (reg : Registry)
    (sid : String) (h : keysNodup reg) :
    containsKey (pruneReg mins now reg) sid = true ↔
      ∃ ts, lookupTs reg sid = some ts ∧ now - ts ≤ max (5 * 60) (mins * 60) := by
  constructor
  · intro hc
    rcases lookupTs_of_containsKey hc with ⟨v, hv⟩
    rw [lookupTs_eq_some_iff (keysNodup_pruneReg h)] at hv
    rcases mem_pruneReg.mp hv with ⟨hmem, hle⟩
    exact ⟨v, (lookupTs_eq_some_iff h).mpr hmem, hle⟩
  · intro ⟨ts, hl, hle⟩
    exact containsKey_of_lookupTs (lookupTs_pruneReg_kept h hl hle)

/-- Witness for the amended C4 at a concrete registry. -/
theorem c4_witness :
    keysNodup [(("s" : String), (100 : Int))] ∧
    (containsKey (pruneReg 60 200 [("s", 100)]) "s" = true ↔
      ∃ ts, lookupTs [(("s" : String), (100 : Int))] "s" = some ts ∧
        200 - ts ≤ max (5 * 60) (60 * 60)) := by
  refine ⟨by unfold keysNodup regKeys; decide,
    c4_amended_prune_effective_ttl 60 200 [("s", 100)] "s"
      (by unfold keysNodup regKeys; decide)⟩

/-! ## Claim C5 -/

/-- C5 counterexample: a wrong password and a correct password at a full
session table produce the *same* failure message "Invalid password or
maximum concurrent users reached" — the code does not distinguish
`InvalidCredential` from `CapacityExceeded`. -/
theorem c5_counterexample :
    (render_login_submit cfgCx "wrong" "Z" 101 Browser.initB
        [("X", 100), ("Y", 100)]).1 = LoginOutcome.failure loginFailureMsg ∧
    (render_login_submit cfgCx "pw" "Z" 101 Browser.initB
        [("X", 100), ("Y", 100)]).1 = LoginOutcome.failure loginFailureMsg := by
  refine ⟨by decide, by decide⟩

/-- C5 amended: with a configured shared password, a login attempt
succeeds iff the submitted password equals the shared secret and the
admission check passes; every rejected attempt fails with the single
combined error message, which does not distinguish a bad password from
a full table. -/
theorem c5_amended_login_single_error (cfg : Config) (password fresh : String)
    (t : Int) (br : Browser) (reg : Registry) (h : cfg.shared ≠ "") :
    ((render_login_submit cfg password fresh t br reg).1 = LoginOutcome.success ↔
      (password = cfg.shared ∧
        (can_login_with_concurrency_limit cfg.session_minutes t 2
          br.session_id reg).1 = true)) ∧
    ((render_login_submit cfg password fresh t br reg).1 ≠ LoginOutcome.success →
      (render_login_submit cfg password fresh t br reg).1 =
        LoginOutcome.failure loginFailureMsg) := by
  unfold render_login_submit
  rw [if_neg (by simp [h])]
  by_cases hpw : password = cfg.shared
  · rw [if_pos (by simp [hpw])]
    cases hcl : (can_login_with_concurrency_limit cfg.session_minutes t 2
        br.session_id reg).1
    · rw [if_neg (by simp [hcl])]
      constructor
      · constructor
        · intro hx
          cases hx
        · intro ⟨_, hx⟩
          cases hx
      · intro _
        rfl
    · rw [if_pos (by simp [hcl])]
      constructor
      · simp [hpw]
      · intro hx
        exact absurd rfl hx
  · rw [if_neg (by simp [hpw])]
    constructor
    · constructor
      · intro hx
        cases hx
      · intro ⟨hx, _⟩
        exact absurd hx hpw
    · intro _
      rfl

/-- Witness for the amended C5: a successful login and a capacity
rejection at concrete inputs. -/
theorem c5_witness :
    ((render_login_submit cfgCx "pw" "Z" 101 Browser.initB []).1 =
        LoginOutcome.success ↔
      ("pw" = cfgCx.shared ∧
        (can_login_with_concurrency_limit cfgCx.session_minutes 101 2
          Browser.initB.session_id []).1 = true)) ∧
    ((render_login_submit cfgCx "pw" "Z" 101 Browser.initB
        [("X", 100), ("Y", 100)]).1 ≠ LoginOutcome.success →
      (render_login_submit cfgCx "pw" "Z" 101 Browser.initB
        [("X", 100), ("Y", 100)]).1 = LoginOutcome.failure loginFailureMsg) := by
  constructor
  · exact (c5_amended_login_single_error cfgCx "pw" "Z" 101 Browser.initB []
      (by decide)).1
  · exact (c5_amended_login_single_error cfgCx "pw" "Z" 101 Browser.initB
      [("X", 100), ("Y", 100)] (by decide)).2

/-! ## Claim C6 -/

/-- C6: operations on one mode never mutate the other mode's history —
clearing or chatting in qa leaves the normal buffer memory untouched and
vice versa, and at the rendering layer the qa tab handler leaves
`normal_messages` untouched and vice versa. -/
theorem c6_mode_isolation (s : ChatState) (h : s.initialized = true) :
    (∀ initO s1, clear_memory "qa" initO s = Except.ok s1 →
      s1.normalMem = s.normalMem) ∧
    (∀ initO s1, clear_memory "normal" initO s = Except.ok s1 →
      s1.qaMem = s.qaMem) ∧
    (∀ prompt initO comp r s1,
      get_chat_response prompt "qa" initO comp s = Except.ok (r, s1) →
        s1.normalMem = s.normalMem) ∧
    (∀ prompt initO comp r s1,
      get_chat_response prompt "normal" initO comp s = Except.ok (r, s1) →
        s1.qaMem = s.qaMem) ∧
    (∀ prompt initO comp s2, (qa_tab_handler prompt initO comp s2).normal_messages =
      s2.normal_messages) ∧
    (∀ prompt initO comp s2, (normal_tab_handler prompt initO comp s2).qa_messages =
      s2.qa_messages) := by
  refine ⟨?_, ?_, ?_, ?_, ?_, ?_⟩
  · intro initO s1 heq
    rw [clear_memory, init_llm_of_initialized initO h] at heq
    simp at heq
    rw [← heq]
  · intro initO s1 heq
    rw [clear_memory, init_llm_of_initialized initO h] at heq
    simp at heq
    rw [← heq]
  · intro prompt initO comp r s1 heq
    rw [get_chat_response, init_llm_of_initialized initO h] at heq
    cases comp with
    | ok resp =>
      simp at heq
      rw [← heq.2]
    | error e =>
      simp at heq
      rw [← heq.2]
  · intro prompt initO comp r s1 heq
    rw [get_chat_response, init_llm_of_initialized initO h] at heq
    cases comp with
    | ok resp =>
      simp at heq
      rw [← heq.2]
    | error e =>
      simp at heq
      rw [← heq.2]
  · intro prompt initO comp s2
    unfold qa_tab_handler
    cases hg : get_chat_response prompt "qa" initO comp s2.chat with
    | ok p =>
      cases p
      rfl
    | error e => rfl
  · intro prompt initO comp s2
    unfold normal_tab_handler
    cases hg : get_chat_response prompt "normal" initO comp s2.chat with
    | ok p =>
      cases p
      rfl
    | error e => rfl

/-- Witness for C6 at a concrete initialized state with nonempty
histories in both modes. -/
theorem c6_witness :
    ((⟨true, [⟨"user", "q1"⟩], [⟨"user", "n1"⟩]⟩ : ChatState).initialized = true) ∧
    (∀ s1, clear_memory "qa" (Except.ok ())
        (⟨true, [⟨"user", "q1"⟩], [⟨"user", "n1"⟩]⟩ : ChatState) = Except.ok s1 →
      s1.normalMem = [⟨"user", "n1"⟩]) := by
  refine ⟨rfl, fun s1 heq => ?_⟩
  exact (c6_mode_isolation ⟨true, [⟨"user", "q1"⟩], [⟨"user", "n1"⟩]⟩ rfl).1
    (Except.ok ()) s1 heq

/-! ## Claim C7 -/

/-- C7: for every mode and every prior state, a clear followed by a
history read returns the empty sequence, and a second clear returns the
very same state as the first (clear is idempotent). -/
theorem c7_clear_then_empty_and_idem (mode : String) (initO : Except String Unit)
    (s s1 : ChatState) (h : clear_memory mode initO s = Except.ok s1) :
    (∀ initO2, get_memory_messages mode initO2 s1 = Except.ok ([], s1)) ∧
    (∀ initO2, clear_memory mode initO2 s1 = Except.ok s1) := by
  unfold clear_memory at h
  cases hinit : init_llm initO s with
  | error e =>
    rw [hinit] at h
    cases h
  | ok s0 =>
    rw [hinit] at h
    dsimp only at h
    have hs0 : s0.initialized = true := init_llm_ok_initialized hinit
    by_cases hm : (mode == "qa") = true
    · rw [if_pos hm] at h
      have hs1 : s1 = { s0 with qaMem := [] } := by
        cases h
        rfl
      have hs1i : s1.initialized = true := by rw [hs1]; exact hs0
      constructor
      · intro initO2
        rw [get_memory_messages, init_llm_of_initialized initO2 hs1i]
        dsimp only
        rw [if_pos hm]
        simp [hs1]
      · intro initO2
        rw [clear_memory, init_llm_of_initialized initO2 hs1i]
        dsimp only
        rw [if_pos hm]
        simp [hs1]
    · rw [if_neg hm] at h
      have hs1 : s1 = { s0 with normalMem := [] } := by
        cases h
        rfl
      have hs1i : s1.initialized = true := by rw [hs1]; exact hs0
      constructor
      · intro initO2
        rw [get_memory_messages, init_llm_of_initialized initO2 hs1i]
        dsimp only
        rw [if_neg hm]
        simp [hs1]
      · intro initO2
        rw [clear_memory, init_llm_of_initialized initO2 hs1i]
        dsimp only
        rw [if_neg hm]
        simp [hs1]

/-- Witness for C7 at a concrete clear of the qa mode. -/
theorem c7_witness :
    clear_memory "qa" (Except.ok ())
        (⟨true, [⟨"user", "q1"⟩], [⟨"user", "n1"⟩]⟩ : ChatState) =
      Except.ok (⟨true, [], [⟨"user", "n1"⟩]⟩ : ChatState) ∧
    get_memory_messages "qa" (Except.ok ())
        (⟨true, [], [⟨"user", "n1"⟩]⟩ : ChatState) =
      Except.ok ([], (⟨true, [], [⟨"user", "n1"⟩]⟩ : ChatState)) ∧
    clear_memory "qa" (Except.ok ())
        (⟨true, [], [⟨"user", "n1"⟩]⟩ : ChatState) =
      Except.ok (⟨true, [], [⟨"user", "n1"⟩]⟩ : ChatState) := by
  have h := c7_clear_then_empty_and_idem "qa" (Except.ok ())
    ⟨true, [⟨"user", "q1"⟩], [⟨"user", "n1"⟩]⟩ ⟨true, [], [⟨"user", "n1"⟩]⟩ rfl
  exact ⟨rfl, h.1 (Except.ok ()), h.2 (Except.ok ())⟩

/-! ## Claim C8 -/

/-- C8: the admission check first prunes expired entries (returning the
pruned table as the new shared state) and then grants admission iff the
pruned active count is strictly below the cap or the candidate id is
already present in the pruned table; in particular it can never return
true for an absent candidate when the pruned table is full. -/
theorem c8_admission_iff (mins now : Int) (maxS : Nat) (reg : Registry)
    (sid : String) (h : sid ≠ "") :
    (can_login_with_concurrency_limit mins now maxS (some sid) reg).2 =
        pruneReg mins now reg ∧
    ((can_login_with_concurrency_limit mins now maxS (some sid) reg).1 = true ↔
      ((pruneReg mins now reg).length < maxS ∨
        containsKey (pruneReg mins now reg) sid = true)) := by
  refine ⟨rfl, ?_⟩
  show canLoginCheck maxS (some sid) (pruneReg mins now reg) = true ↔ _
  cases hc : containsKey (pruneReg mins now reg) sid
  · simp [canLoginCheck, hc]
  · simp [canLoginCheck, hc, bne_iff_ne, h]

/-- Witness for C8: a present candidate is admitted even at a full
table; an absent candidate at a full table is rejected. -/
theorem c8_witness :
    ((can_login_with_concurrency_limit 60 101 2 (some "X")
        [("X", 100), ("Y", 100)]).1 = true ↔
      ((pruneReg 60 101 [("X", 100), ("Y", 100)]).length < 2 ∨
        containsKey (pruneReg 60 101 [("X", 100), ("Y", 100)]) "X" = true)) ∧
    (can_login_with_concurrency_limit 60 101 2 (some "X")
        [("X", 100), ("Y", 100)]).1 = true ∧
    (can_login_with_concurrency_limit 60 101 2 (some "Z")
        [("X", 100), ("Y", 100)]).1 = false := by
  refine ⟨(c8_admission_iff 60 101 2 [("X", 100), ("Y", 100)] "X" (by decide)).2,
    by decide, by decide⟩

/-! ## Claim C9 -/

/-- C9 counterexample: an initialization failure of the model client
propagates out of `get_chat_response` (whose `_init_llm()` call sits
outside its try block) into the tab-level handler, which records
"❌ Sorry, I encountered an error: " plus the raw exception text into
the conversation history — the recorded message contains the raw
exception text and is not one of the fixed classified messages. -/
theorem c9_counterexample :
    (qa_tab_handler "hi" (Except.error initFailMsg) (Except.ok "ok")
        ⟨[], [], ⟨false, [], []⟩⟩).qa_messages =
      [⟨"user", "hi"⟩, ⟨"assistant", rawErrPrefixStr ++ initFailMsg⟩] ∧
    strContainsLower (rawErrPrefixStr ++ initFailMsg) "azure_openai_api_key" = true ∧
    (rawErrPrefixStr ++ initFailMsg) ∉ classifiedMessages := by
  refine ⟨rfl, by decide, by decide⟩

/-- C9 amended: failures of the completion call itself are converted to
one of the six fixed classified messages, which is what gets shown and
recorded; but failures raised before the call — model-client
initialization errors — reach the tab handler's catch-all, which shows
and records the fixed prefix followed by the raw exception text. -/
theorem c9_amended_raw_text_on_init_failure (prompt e einit resp : String)
    (s : AppState) (h : s.chat.initialized = false) :
    classify_error e ∈ classifiedMessages ∧
    (qa_tab_handler prompt (Except.ok ()) (Except.error e) s).qa_messages =
      s.qa_messages ++ [⟨"user", prompt⟩, ⟨"assistant", classify_error e⟩] ∧
    (qa_tab_handler prompt (Except.error einit) (Except.ok resp) s).qa_messages =
      s.qa_messages ++ [⟨"user", prompt⟩, ⟨"assistant", rawErrPrefixStr ++ einit⟩] := by
  refine ⟨(c2_completion_failure_recorded prompt e s).2.2.1,
    (c2_completion_failure_recorded prompt e s).1, ?_⟩
  unfold qa_tab_handler get_chat_response init_llm
  simp [h]

/-- Witness for the amended C9 at concrete failures. -/
theorem c9_witness :
    ((⟨[], [], ⟨false, [], []⟩⟩ : AppState).chat.initialized = false) ∧
    (qa_tab_handler "hi" (Except.error "boom secret-endpoint") (Except.ok "ok")
        ⟨[], [], ⟨false, [], []⟩⟩).qa_messages =
      [⟨"user", "hi"⟩, ⟨"assistant", rawErrPrefixStr ++ "boom secret-endpoint"⟩] := by
  refine ⟨rfl, ?_⟩
  have h := c9_amended_raw_text_on_init_failure "hi" "x" "boom secret-endpoint" "ok"
    ⟨[], [], ⟨false, [], []⟩⟩ rfl
  exact h.2.2

/-! ## Claim C10 -/

/-- C10: every mode argument other than the exact string "qa" (the
empty string, "normal", or any unrecognized value) makes
`get_chat_response`, `clear_memory` and `get_memory_messages` behave
exactly as for mode "normal": the dispatch is a binary equality test
against "qa", so unknown modes silently alias the normal mode. -/
theorem c10_unknown_mode_aliases_normal (mode : String) (h : mode ≠ "qa") :
    (∀ prompt initO comp s, get_chat_response prompt mode initO comp s =
        get_chat_response prompt "normal" initO comp s) ∧
    (∀ initO s, clear_memory mode initO s = clear_memory "normal" initO s) ∧
    (∀ initO s, get_memory_messages mode initO s =
        get_memory_messages "normal" initO s) := by
  have hm : (mode == "qa") = false := by
    rw [beq_eq_false_iff_ne]
    exact h
  refine ⟨?_, ?_, ?_⟩
  · intro prompt initO comp s
    unfold get_chat_response
    cases init_llm initO s with
    | error e => rfl
    | ok s1 =>
      cases comp with
      | ok resp =>
        dsimp only
        rw [if_neg (by simp [hm]), if_neg (by decide)]
      | error e => rfl
  · intro initO s
    unfold clear_memory
    cases init_llm initO s with
    | error e => rfl
    | ok s1 =>
      dsimp only
      rw [if_neg (by simp [hm]), if_neg (by decide)]
  · intro initO s
    unfold get_memory_messages
    cases init_llm initO s with
    | error e => rfl
    | ok s1 =>
      dsimp only
      rw [if_neg (by simp [hm]), if_neg (by decide)]

/-- Witness for C10 at the empty-string mode on a concrete state. -/
theorem c10_witness :
    ("" : String) ≠ "qa" ∧
    get_memory_messages "" (Except.ok ())
        (⟨true, [⟨"user", "q1"⟩], [⟨"user", "n1"⟩]⟩ : ChatState) =
      get_memory_messages "normal" (Except.ok ())
        (⟨true, [⟨"user", "q1"⟩], [⟨"user", "n1"⟩]⟩ : ChatState) := by
  refine ⟨by decide, ?_⟩
  exact (c10_unknown_mode_aliases_normal "" (by decide)).2.2 (Except.ok ())
    ⟨true, [⟨"user", "q1"⟩], [⟨"user", "n1"⟩]⟩

/-! ## Claim C1: helper lemmas for the capacity analysis -/

theorem updateBrowser_self (bs : Nat → Browser) (b : Nat) :
    updateBrowser bs b (bs b) = bs := by
  funext j
  unfold updateBrowser
  split
  · rename_i hj
    rw [hj]
  · rfl

theorem updateBrowser_sid_ne (bs : Nat → Browser) (i : Nat) (br : Browser)
    (x : String) (h1 : br.session_id ≠ some x)
    (h2 : ∀ b, (bs b).session_id ≠ some x) :
    ∀ b, ((updateBrowser bs i br) b).session_id ≠ some x := by
  intro b
  unfold updateBrowser
  split
  · exact h1
  · exact h2 b

theorem stepCx1 : step cfgCx initSys (Ev.login 0 "pw" "A" 1) = sCx1 := by rfl

theorem stepCx2 : step cfgCx sCx1 (Ev.restore 1 "A" "pw:A" 3000) = sCx2 := by rfl

theorem stepCx3 : step cfgCx sCx2 (Ev.authreq 0 "Z" 3700) = sCx3 := by rfl

theorem stepCx4 : step cfgCx sCx3 (Ev.login 2 "pw" "B" 3701) = sCx4 := by rfl

theorem stepCx5 : step cfgCx sCx4 (Ev.login 3 "pw" "C" 3702) = sCx5 := by rfl

/-- C1 counterexample: a chronologically valid sequence made of one
login, one URL-token restore, and authenticated requests plus two more
logins drives the registry to three simultaneously registered session
ids, exceeding maxConcurrentSessions = 2.  The restore gives browser 1 a
later `login_ts` on the shared id "A"; browser 0's expiry removes "A";
two fresh logins fill the cap; and browser 1's authenticated request
re-inserts "A" via the `is_authenticated` re-registration branch. -/
theorem c1_counterexample :
    GoodTrace cfgCx initSys evsCx ∧ (run cfgCx initSys evsCx).reg.length = 3 := by
  constructor
  · simp only [evsCx, GoodTrace, stepCx1, stepCx2, stepCx3, stepCx4, stepCx5]
    refine ⟨⟨by decide, by decide, by decide, fun b h => Option.noConfusion h⟩,
      ⟨by decide, by decide, trivial⟩,
      ⟨by decide, by decide, trivial⟩,
      ⟨by decide, by decide, by decide, ?_⟩,
      ⟨by decide, by decide, by decide, ?_⟩,
      ⟨by decide, by decide, trivial⟩, trivial⟩
    · exact updateBrowser_sid_ne _ 0 Browser.initB "B" (by decide)
        (updateBrowser_sid_ne _ 1 brCx1 "B" (by decide)
          (updateBrowser_sid_ne _ 0 brCx0 "B" (by decide) (fun b h => Option.noConfusion h)))
    · exact updateBrowser_sid_ne _ 2 brCx2 "C" (by decide)
        (updateBrowser_sid_ne _ 0 Browser.initB "C" (by decide)
          (updateBrowser_sid_ne _ 1 brCx1 "C" (by decide)
            (updateBrowser_sid_ne _ 0 brCx0 "C" (by decide) (fun b h => Option.noConfusion h))))
  · decide

/-! ## Characterizations of the login and authenticated-request steps -/

theorem updateBrowser_at (bs : Nat → Browser) (b : Nat) (br : Browser) :
    (updateBrowser bs b br) b = br := by
  unfold updateBrowser
  rw [if_pos rfl]

theorem updateBrowser_ne (bs : Nat → Browser) (b : Nat) (br : Browser) {b' : Nat}
    (h : b' ≠ b) : (updateBrowser bs b br) b' = bs b' := by
  unfold updateBrowser
  rw [if_neg h]

theorem render_login_fail_shared {cfg : Config} {pw fresh : String} {t : Int}
    {br : Browser} {reg : Registry} (h : cfg.shared = "") :
    render_login_submit cfg pw fresh t br reg =
      (LoginOutcome.failure noSharedPasswordMsg, br, reg) := by
  unfold render_login_submit
  rw [if_pos (by simp [h])]

theorem render_login_fail_pw {cfg : Config} {pw fresh : String} {t : Int}
    {br : Browser} {reg : Registry} (h1 : cfg.shared ≠ "") (h2 : pw ≠ cfg.shared) :
    render_login_submit cfg pw fresh t br reg =
      (LoginOutcome.failure loginFailureMsg, br, reg) := by
  unfold render_login_submit
  rw [if_neg (by simp [h1]), if_neg (by simp [h2])]

theorem render_login_fail_cap {cfg : Config} {pw fresh : String} {t : Int}
    {br : Browser} {reg : Registry} (h1 : cfg.shared ≠ "") (h2 : pw = cfg.shared)
    (h3 : canLoginCheck 2 br.session_id (pruneReg cfg.session_minutes t reg) = false) :
    render_login_submit cfg pw fresh t br reg =
      (LoginOutcome.failure loginFailureMsg, br, pruneReg cfg.session_minutes t reg) := by
  unfold render_login_submit can_login_with_concurrency_limit
  rw [if_neg (by simp [h1]), if_pos (by simp [h2])]
  dsimp only
  rw [if_neg (by simp [h3])]

theorem render_login_ok {cfg : Config} {pw fresh : String} {t : Int}
    {br : Browser} {reg : Registry} (h1 : cfg.shared ≠ "") (h2 : pw = cfg.shared)
    (h3 : canLoginCheck 2 br.session_id (pruneReg cfg.session_minutes t reg) = true) :
    render_login_submit cfg pw fresh t br reg =
      (LoginOutcome.success, ⟨true, t, some (br.session_id.getD fresh)⟩,
        setKey (pruneReg cfg.session_minutes t reg) (br.session_id.getD fresh) t) := by
  unfold render_login_submit can_login_with_concurrency_limit
  rw [if_neg (by simp [h1]), if_pos (by simp [h2])]
  dsimp only
  rw [if_pos (by simp [h3])]
  unfold touch_session
  rw [pruneReg_idem]

theorem stepAuthreq_notauth {cfg : Config} {b : Nat} {fresh : String} {t : Int}
    {s : Sys} (h : (s.browsers b).auth_ok = false) :
    stepAuthreq cfg b fresh t s = { s with now := t } := by
  unfold stepAuthreq
  rw [if_neg (by simp [h])]

theorem stepAuthreq_expired {cfg : Config} {b : Nat} {fresh : String} {t : Int}
    {s : Sys} {sid : String} (ha : (s.browsers b).auth_ok = true)
    (hsid : (s.browsers b).session_id = some sid)
    (hcond : (s.browsers b).login_ts ≠ 0 ∧
      cfg.session_minutes * 60 < t - (s.browsers b).login_ts) :
    stepAuthreq cfg b fresh t s =
      { reg := if sid != "" then eraseKey s.reg sid else s.reg,
        browsers := updateBrowser s.browsers b Browser.initB, now := t } := by
  unfold stepAuthreq
  rw [if_pos (by simp [ha]), if_pos hcond, hsid]

theorem stepAuthreq_active {cfg : Config} {b : Nat} {fresh : String} {t : Int}
    {s : Sys} {sid : String} (ha : (s.browsers b).auth_ok = true)
    (hsid : (s.browsers b).session_id = some sid)
    (hnex : ¬((s.browsers b).login_ts ≠ 0 ∧
      cfg.session_minutes * 60 < t - (s.browsers b).login_ts))
    (hreg : containsKey s.reg sid = true) :
    stepAuthreq cfg b fresh t s =
      { reg := setKey (pruneReg cfg.session_minutes t s.reg) sid t,
        browsers := updateBrowser s.browsers b
          { s.browsers b with session_id := some sid },
        now := t } := by
  unfold stepAuthreq
  rw [if_pos (by simp [ha]), if_neg hnex, hsid]
  dsimp only
  rw [if_neg (by simp [hreg])]
  unfold touch_session
  rfl

/-! ## Invariant preservation -/

theorem inv_mk (cfg : Config) (reg : Registry) (bs : Nat → Browser) (now : Int)
    (h1 : keysNodup reg) (h2 : reg.length ≤ 2) (h3 : ∀ p ∈ reg, p.2 ≤ now)
    (h4 : ∀ b1 b2 : Nat, b1 ≠ b2 → ∀ sid : String,
      (bs b1).session_id = some sid → (bs b2).session_id ≠ some sid)
    (h5 : ∀ b : Nat, (bs b).auth_ok = true →
      ∃ sid : String, (bs b).session_id = some sid ∧
        0 < (bs b).login_ts ∧ (bs b).login_ts ≤ now ∧
        ((∃ ts : Int, lookupTs reg sid = some ts ∧ (bs b).login_ts ≤ ts) ∨
         (containsKey reg sid = false ∧
          cfg.session_minutes * 60 < now - (bs b).login_ts))) :
    Inv cfg { reg := reg, browsers := bs, now := now } :=
  ⟨h1, h2, h3, h4, h5⟩

theorem inv_now_mono (cfg : Config) {s : Sys} (hI : Inv cfg s) {t : Int}
    (ht : s.now ≤ t) : Inv cfg { s with now := t } := by
  apply inv_mk
  · exact hI.nodup
  · exact hI.capOk
  · intro p hp
    exact le_trans (hI.tsLe p hp) ht
  · exact hI.uniq
  · intro b hb
    rcases hI.authInv b hb with ⟨sid, hsid, hpos, hle, hdisj⟩
    refine ⟨sid, hsid, hpos, le_trans hle ht, ?_⟩
    rcases hdisj with h1 | ⟨h2, h3⟩
    · exact Or.inl h1
    · exact Or.inr ⟨h2, by omega⟩

theorem authDisj_pruneReg (cfg : Config) {s : Sys} (hI : Inv cfg s) {t : Int}
    (ht : s.now ≤ t) {sid : String} {lts : Int}
    (hdisj : (∃ ts, lookupTs s.reg sid = some ts ∧ lts ≤ ts) ∨
       (containsKey s.reg sid = false ∧ cfg.session_minutes * 60 < s.now - lts)) :
    (∃ ts, lookupTs (pruneReg cfg.session_minutes t s.reg) sid = some ts ∧ lts ≤ ts) ∨
      (containsKey (pruneReg cfg.session_minutes t s.reg) sid = false ∧
        cfg.session_minutes * 60 < t - lts) := by
  rcases hdisj with ⟨ts, hlk, hlts⟩ | ⟨hc, hgt⟩
  · by_cases hkeep : t - ts ≤ effectiveTTL cfg.session_minutes
    · exact Or.inl ⟨ts, lookupTs_pruneReg_kept hI.nodup hlk hkeep, hlts⟩
    · have httl : cfg.session_minutes * 60 ≤ effectiveTTL cfg.session_minutes :=
        le_max_right _ _
      exact Or.inr ⟨containsKey_pruneReg_dropped hI.nodup hlk (by omega), by omega⟩
  · exact Or.inr ⟨containsKey_pruneReg_false hc, by omega⟩

theorem authDisj_setKey_other (cfg : Config) {reg : Registry} (hn : keysNodup reg)
    {sid sidK : String} (hne : sid ≠ sidK) {lts t nowN : Int}
    (hdisj : (∃ ts, lookupTs reg sid = some ts ∧ lts ≤ ts) ∨
       (containsKey reg sid = false ∧ cfg.session_minutes * 60 < nowN - lts)) :
    (∃ ts, lookupTs (setKey reg sidK t) sid = some ts ∧ lts ≤ ts) ∨
      (containsKey (setKey reg sidK t) sid = false ∧
        cfg.session_minutes * 60 < nowN - lts) := by
  rcases hdisj with ⟨ts, hlk, hlts⟩ | ⟨hc, hgt⟩
  · exact Or.inl ⟨ts, by rw [lookupTs_setKey_other t hn hne]; exact hlk, hlts⟩
  · exact Or.inr ⟨by rw [containsKey_setKey_other t hne]; exact hc, hgt⟩

theorem uniq_updateBrowser {bs : Nat → Browser}
    (hu : ∀ b1 b2 : Nat, b1 ≠ b2 → ∀ x : String,
      (bs b1).session_id = some x → (bs b2).session_id ≠ some x)
    {b : Nat} {br : Browser}
    (hnew : ∀ b' : Nat, b' ≠ b → ∀ x : String,
      br.session_id = some x → (bs b').session_id ≠ some x) :
    ∀ b1 b2 : Nat, b1 ≠ b2 → ∀ x : String,
      ((updateBrowser bs b br) b1).session_id = some x →
        ((updateBrowser bs b br) b2).session_id ≠ some x := by
  intro b1 b2 hne x h1
  unfold updateBrowser at h1 ⊢
  by_cases hb1 : b1 = b <;> by_cases hb2 : b2 = b
  · exact absurd (hb1.trans hb2.symm) hne
  · rw [if_pos hb1] at h1
    rw [if_neg hb2]
    exact hnew b2 hb2 x h1
  · rw [if_neg hb1] at h1
    rw [if_pos hb2]
    intro h2
    exact hnew b1 hb1 x h2 h1
  · rw [if_neg hb1] at h1
    rw [if_neg hb2]
    exact hu b1 b2 hne x h1

theorem canLoginCheck_some_true {maxS : Nat} {sid : String} {reg : Registry}
    (h : canLoginCheck maxS (some sid) reg = true) :
    containsKey reg sid = true ∨ reg.length < maxS := by
  unfold canLoginCheck at h
  dsimp only at h
  by_cases hc : (sid != "" && containsKey reg sid) = true
  · have hc2 : (sid != "") = true ∧ containsKey reg sid = true := by
      simpa using hc
    exact Or.inl hc2.2
  · rw [if_neg hc] at h
    exact Or.inr (of_decide_eq_true h)

theorem length_setKey_le_of_lt {reg : Registry} {k : String} {v : Int}
    (h : reg.length < 2) : (setKey reg k v).length ≤ 2 := by
  cases hc : containsKey reg k
  · rw [length_setKey_new hc]
    omega
  · rw [length_setKey_mem hc]
    omega

theorem inv_prune (cfg : Config) {s : Sys} (hI : Inv cfg s) {t : Int}
    (ht : s.now ≤ t) :
    Inv cfg { reg := pruneReg cfg.session_minutes t s.reg,
              browsers := s.browsers, now := t } := by
  apply inv_mk
  · exact keysNodup_pruneReg hI.nodup
  · exact le_trans (length_pruneReg_le _ _ _) hI.capOk
  · intro p hp
    exact le_trans (hI.tsLe p (mem_pruneReg.mp hp).1) ht
  · exact hI.uniq
  · intro b' hb'
    rcases hI.authInv b' hb' with ⟨sid, hsid, hpos, hle, hdisj⟩
    exact ⟨sid, hsid, hpos, le_trans hle ht, authDisj_pruneReg cfg hI ht hdisj⟩

theorem inv_admit (cfg : Config) (b : Nat) (fresh : String) (t : Int) (s : Sys)
    (hI : Inv cfg s) (ht : s.now ≤ t) (htpos : 0 < t) (hfresh : FreshFor s fresh)
    (hcl : canLoginCheck 2 (s.browsers b).session_id
      (pruneReg cfg.session_minutes t s.reg) = true) :
    Inv cfg { reg := setKey (pruneReg cfg.session_minutes t s.reg)
                ((s.browsers b).session_id.getD fresh) t,
              browsers := updateBrowser s.browsers b
                ⟨true, t, some ((s.browsers b).session_id.getD fresh)⟩,
              now := t } := by
  have hnp : keysNodup (pruneReg cfg.session_minutes t s.reg) :=
    keysNodup_pruneReg hI.nodup
  cases hsid : (s.browsers b).session_id with
  | none =>
    rw [hsid] at hcl
    have hlen : (pruneReg cfg.session_minutes t s.reg).length < 2 :=
      of_decide_eq_true hcl
    apply inv_mk
    · exact keysNodup_setKey hnp
    · exact length_setKey_le_of_lt hlen
    · intro p hp
      rcases mem_setKey hp with rfl | hp2
      · exact le_refl t
      · exact le_trans (hI.tsLe p (mem_pruneReg.mp hp2).1) ht
    · apply uniq_updateBrowser hI.uniq
      intro b' _ x hx
      have hx' : x = fresh := by
        have hxx := hx.symm
        simpa using hxx
      rw [hx']
      exact hfresh.2 b'
    · intro b' hb'
      by_cases hbb : b' = b
      · subst hbb
        rw [updateBrowser_at] at hb' ⊢
        exact ⟨fresh, rfl, htpos, le_refl t,
          Or.inl ⟨t, lookupTs_setKey_self hnp _ _, le_refl t⟩⟩
      · rw [updateBrowser_ne _ _ _ hbb] at hb' ⊢
        rcases hI.authInv b' hb' with ⟨sid', hsid', hpos', hle', hdisj'⟩
        have hne' : sid' ≠ fresh := fun hEq => hfresh.2 b' (hEq ▸ hsid')
        exact ⟨sid', hsid', hpos', le_trans hle' ht,
          authDisj_setKey_other cfg hnp hne'
            (authDisj_pruneReg cfg hI ht hdisj')⟩
  | some sid0 =>
    rw [hsid] at hcl
    dsimp only [Option.getD]
    apply inv_mk
    · exact keysNodup_setKey hnp
    · rcases canLoginCheck_some_true hcl with hck | hlen
      · rw [length_setKey_mem hck]
        exact le_trans (length_pruneReg_le _ _ _) hI.capOk
      · exact length_setKey_le_of_lt hlen
    · intro p hp
      rcases mem_setKey hp with rfl | hp2
      · exact le_refl t
      · exact le_trans (hI.tsLe p (mem_pruneReg.mp hp2).1) ht
    · apply uniq_updateBrowser hI.uniq
      intro b' hb' x hx
      have hx' : x = sid0 := by
        have hxx := hx.symm
        simpa using hxx
      rw [hx']
      exact hI.uniq b b' (fun hEq => hb' hEq.symm) sid0 hsid
    · intro b' hb'
      by_cases hbb : b' = b
      · subst hbb
        rw [updateBrowser_at] at hb' ⊢
        exact ⟨sid0, rfl, htpos, le_refl t,
          Or.inl ⟨t, lookupTs_setKey_self hnp _ _, le_refl t⟩⟩
      · rw [updateBrowser_ne _ _ _ hbb] at hb' ⊢
        rcases hI.authInv b' hb' with ⟨sid', hsid', hpos', hle', hdisj'⟩
        have hne' : sid' ≠ sid0 := by
          intro hEq
          exact hI.uniq b' b hbb sid' hsid' (by rw [hsid, hEq])
        exact ⟨sid', hsid', hpos', le_trans hle' ht,
          authDisj_setKey_other cfg hnp hne'
            (authDisj_pruneReg cfg hI ht hdisj')⟩

theorem inv_stepLogin (cfg : Config) (b : Nat) (pw fresh : String) (t : Int)
    (s : Sys) (hI : Inv cfg s) (ht : s.now ≤ t) (htpos : 0 < t)
    (hfresh : FreshFor s fresh) : Inv cfg (stepLogin cfg b pw fresh t s) := by
  unfold stepLogin
  by_cases hsh : cfg.shared = ""
  · rw [render_login_fail_shared hsh]
    dsimp only
    rw [updateBrowser_self]
    exact inv_now_mono cfg hI ht
  · by_cases hpw : pw = cfg.shared
    · cases hcl : canLoginCheck 2 (s.browsers b).session_id
        (pruneReg cfg.session_minutes t s.reg) with
      | false =>
        rw [render_login_fail_cap hsh hpw hcl]
        dsimp only
        rw [updateBrowser_self]
        exact inv_prune cfg hI ht
      | true =>
        rw [render_login_ok hsh hpw hcl]
        dsimp only
        exact inv_admit cfg b fresh t s hI ht htpos hfresh hcl
    · rw [render_login_fail_pw hsh hpw]
      dsimp only
      rw [updateBrowser_self]
      exact inv_now_mono cfg hI ht

theorem inv_stepAuthreq (cfg : Config) (b : Nat) (fresh : String) (t : Int)
    (s : Sys) (hI : Inv cfg s) (ht : s.now ≤ t) (_htpos : 0 < t) :
    Inv cfg (stepAuthreq cfg b fresh t s) := by
  cases ha : (s.browsers b).auth_ok with
  | false =>
    rw [stepAuthreq_notauth ha]
    exact inv_now_mono cfg hI ht
  | true =>
    rcases hI.authInv b ha with ⟨sidb, hsid, hpos, hle, hdisj⟩
    by_cases hex : (s.browsers b).login_ts ≠ 0 ∧
        cfg.session_minutes * 60 < t - (s.browsers b).login_ts
    · rw [stepAuthreq_expired ha hsid hex]
      have huniq : ∀ b1 b2 : Nat, b1 ≠ b2 → ∀ x : String,
          ((updateBrowser s.browsers b Browser.initB) b1).session_id = some x →
            ((updateBrowser s.browsers b Browser.initB) b2).session_id ≠ some x :=
        uniq_updateBrowser hI.uniq (fun _ _ x hx => Option.noConfusion hx)
      have hauthE : ∀ reg1 : Registry,
          (∀ sid' : String, sid' ≠ sidb →
            (lookupTs reg1 sid' = lookupTs s.reg sid' ∧
             containsKey reg1 sid' = containsKey s.reg sid')) →
          ∀ b' : Nat, ((updateBrowser s.browsers b Browser.initB) b').auth_ok = true →
          ∃ sid : String,
            ((updateBrowser s.browsers b Browser.initB) b').session_id = some sid ∧
            0 < ((updateBrowser s.browsers b Browser.initB) b').login_ts ∧
            ((updateBrowser s.browsers b Browser.initB) b').login_ts ≤ t ∧
            ((∃ ts : Int, lookupTs reg1 sid = some ts ∧
                ((updateBrowser s.browsers b Browser.initB) b').login_ts ≤ ts) ∨
             (containsKey reg1 sid = false ∧
              cfg.session_minutes * 60 <
                t - ((updateBrowser s.browsers b Browser.initB) b').login_ts)) := by
        intro reg1 hsame b' hb'
        by_cases hbb : b' = b
        · subst hbb
          rw [updateBrowser_at] at hb'
          exact Bool.noConfusion hb'
        · rw [updateBrowser_ne _ _ _ hbb] at hb' ⊢
          rcases hI.authInv b' hb' with ⟨sid', hsid', hpos', hle', hdisj'⟩
          have hne' : sid' ≠ sidb := by
            intro hEq
            exact hI.uniq b' b hbb sid' hsid' (by rw [hsid, hEq])
          refine ⟨sid', hsid', hpos', le_trans hle' ht, ?_⟩
          rcases hdisj' with ⟨ts', hlk', hlts'⟩ | ⟨hc', hgt'⟩
          · exact Or.inl ⟨ts', by rw [(hsame sid' hne').1]; exact hlk', hlts'⟩
          · exact Or.inr ⟨by rw [(hsame sid' hne').2]; exact hc', by omega⟩
      cases hsb : (sidb != "") with
      | false =>
        rw [if_neg (by simp)]
        apply inv_mk
        · exact hI.nodup
        · exact hI.capOk
        · intro p hp
          exact le_trans (hI.tsLe p hp) ht
        · exact huniq
        · exact hauthE s.reg (fun sid' _ => ⟨rfl, rfl⟩)
      | true =>
        rw [if_pos rfl]
        apply inv_mk
        · exact keysNodup_eraseKey _ hI.nodup
        · exact le_trans (length_eraseKey_le _ _) hI.capOk
        · intro p hp
          exact le_trans (hI.tsLe p (mem_eraseKey hp).1) ht
        · exact huniq
        · exact hauthE (eraseKey s.reg sidb)
            (fun sid' hne' => ⟨lookupTs_eraseKey_other hI.nodup hne',
              containsKey_eraseKey_other hne'⟩)
    · have hnlt : t - (s.browsers b).login_ts ≤ cfg.session_minutes * 60 := by
        rcases not_and_or.mp hex with h0 | hlt
        · exact absurd (by omega : (s.browsers b).login_ts ≠ 0) h0
        · omega
      have hpresent : ∃ ts, lookupTs s.reg sidb = some ts ∧
          (s.browsers b).login_ts ≤ ts := by
        rcases hdisj with hp | ⟨hc, hgt⟩
        · exact hp
        · exfalso
          omega
      rcases hpresent with ⟨ts0, hlk0, hlts1⟩
      have hck : containsKey s.reg sidb = true := containsKey_of_lookupTs hlk0
      rw [stepAuthreq_active ha hsid hex hck]
      have hnp : keysNodup (pruneReg cfg.session_minutes t s.reg) :=
        keysNodup_pruneReg hI.nodup
      apply inv_mk
      · exact keysNodup_setKey hnp
      · exact le_trans (length_touch_le_of_mem hck) hI.capOk
      · intro p hp
        rcases mem_setKey hp with rfl | hp2
        · exact le_refl t
        · exact le_trans (hI.tsLe p (mem_pruneReg.mp hp2).1) ht
      · apply uniq_updateBrowser hI.uniq
        intro b' hb' x hx
        have hx' : x = sidb := by
          have hxx := hx.symm
          simpa using hxx
        rw [hx']
        exact hI.uniq b b' (fun hEq => hb' hEq.symm) sidb hsid
      · intro b' hb'
        by_cases hbb : b' = b
        · subst hbb
          rw [updateBrowser_at] at hb' ⊢
          refine ⟨sidb, rfl, ?_, ?_, ?_⟩
          · exact hpos
          · exact le_trans hle ht
          · exact Or.inl ⟨t, lookupTs_setKey_self hnp _ _, le_trans hle ht⟩
        · rw [updateBrowser_ne _ _ _ hbb] at hb' ⊢
          rcases hI.authInv b' hb' with ⟨sid', hsid', hpos', hle', hdisj'⟩
          have hne' : sid' ≠ sidb := by
            intro hEq
            exact hI.uniq b' b hbb sid' hsid' (by rw [hsid, hEq])
          exact ⟨sid', hsid', hpos', le_trans hle' ht,
            authDisj_setKey_other cfg hnp hne'
              (authDisj_pruneReg cfg hI ht hdisj')⟩

theorem inv_init (cfg : Config) : Inv cfg initSys := by
  refine ⟨List.nodup_nil, by decide, ?_, ?_, ?_⟩
  · intro p hp
    cases hp
  · intro b1 b2 _ x h1
    exact Option.noConfusion h1
  · intro b hb
    exact Bool.noConfusion hb

theorem inv_preserved (cfg : Config) (s : Sys) (e : Ev) (hI : Inv cfg s)
    (hg : GoodEv s e) (hnr : e.isRestoreEv = false) : Inv cfg (step cfg s e) := by
  rcases hg with ⟨ht, htpos, hfr⟩
  cases e with
  | login b pw fresh t => exact inv_stepLogin cfg b pw fresh t s hI ht htpos hfr
  | restore b tok sig t => exact Bool.noConfusion hnr
  | authreq b fresh t => exact inv_stepAuthreq cfg b fresh t s hI ht htpos

theorem inv_run (cfg : Config) (evs : List Ev) : ∀ s : Sys, Inv cfg s →
    GoodTrace cfg s evs → (∀ e ∈ evs, e.isRestoreEv = false) →
    Inv cfg (run cfg s evs) := by
  induction evs with
  | nil =>
    intro s hI _ _
    exact hI
  | cons e es ih =>
    intro s hI hg hnr
    have hg1 : GoodEv s e ∧ GoodTrace cfg (step cfg s e) es := hg
    exact ih (step cfg s e)
      (inv_preserved cfg s e hI hg1.1 (hnr e (List.mem_cons_self e es)))
      hg1.2 (fun e' he' => hnr e' (List.mem_cons_of_mem e he'))

/-- C1 amended: over traces made only of login attempts and
authenticated requests — no URL-token restore requests — with fresh
uuids and positive nondecreasing wall-clock times, the number of
simultaneously registered session ids never exceeds
maxConcurrentSessions = 2; and, unconditionally, admission is only
granted when the pruned active count is strictly below the cap or the
candidate id is already registered.  (With restore requests included,
the cap can be exceeded — see the counterexample.) -/
theorem c1_amended_capacity (cfg : Config) (evs : List Ev)
    (hg : GoodTrace cfg initSys evs)
    (hnr : ∀ e ∈ evs, e.isRestoreEv = false) :
    (run cfg initSys evs).reg.length ≤ 2 ∧
    (∀ mins now : Int, ∀ maxS : Nat, ∀ sidOpt : Option String, ∀ reg : Registry,
      (can_login_with_concurrency_limit mins now maxS sidOpt reg).1 = true →
        ((pruneReg mins now reg).length < maxS ∨
          ∃ sid, sidOpt = some sid ∧
            containsKey (pruneReg mins now reg) sid = true)) := by
  refine ⟨(inv_run cfg evs initSys (inv_init cfg) hg hnr).capOk, ?_⟩
  intro mins now maxS sidOpt reg h
  have h' : canLoginCheck maxS sidOpt (pruneReg mins now reg) = true := h
  cases sidOpt with
  | none => exact Or.inl (of_decide_eq_true h')
  | some sid =>
    rcases canLoginCheck_some_true h' with hc | hlen
    · exact Or.inr ⟨sid, rfl, hc⟩
    · exact Or.inl hlen

/-- Witness for the amended C1: a concrete restore-free trace satisfies
the hypotheses, and its final registry is within the cap. -/
theorem c1_witness :
    GoodTrace cfgCx initSys [Ev.login 0 "pw" "A" 1, Ev.authreq 0 "Z" 2] ∧
    (∀ e ∈ [Ev.login 0 "pw" "A" 1, Ev.authreq 0 "Z" 2], Ev.isRestoreEv e = false) ∧
    (run cfgCx initSys [Ev.login 0 "pw" "A" 1, Ev.authreq 0 "Z" 2]).reg.length ≤ 2 := by
  have hg : GoodTrace cfgCx initSys [Ev.login 0 "pw" "A" 1, Ev.authreq 0 "Z" 2] := by
    refine ⟨⟨by decide, by decide, by decide, fun b h => Option.noConfusion h⟩,
      ⟨by decide, by decide, trivial⟩, trivial⟩
  have hnr : ∀ e ∈ [Ev.login 0 "pw" "A" 1, Ev.authreq 0 "Z" 2],
      Ev.isRestoreEv e = false := by decide
  exact ⟨hg, hnr, (c1_amended_capacity cfgCx _ hg hnr).1⟩


end ChatApp
